import Mathlib

/-
Shallow embedding of `src/services/audio/service/audio_ui.py` from
mycroft-dinkum: the audio session orchestrator (TTS session registry,
speech playback loop, background stream controller, repeating timer).

Python threads/locks are modelled by making each handler and each wake of
the speech playback loop an atomic step on an explicit state; calls into
the external Audio HAL and the bounded wait on the per-session
finished-signal are recorded as an `Effect` trace; emitted bus messages
are recorded as a `Message` trace.  Session ids are `Option String`
(Python `None` = no session).  Durations are `ℚ` (Python floats carry no
float-specific behaviour here: `0.5` is exact and the code only adds).
-/

namespace MycroftAudio

/-- Session identifier: Python strings, with `none` for Python `None`. -/
abbrev SessionId := Option String

/-- A chunk of TTS audio to play (`TTSRequest` dataclass). -/
structure TTSRequest where
  uri : String
  chunk_index : Int
  num_chunks : Int
  text : Option String
deriving DecidableEq, Repr

/-- Python property `is_first_chunk`: `chunk_index <= 0`. -/
def TTSRequest.is_first_chunk (r : TTSRequest) : Bool :=
  decide (r.chunk_index ≤ 0)

/-- Python property `is_last_chunk`: `chunk_index >= num_chunks - 1`. -/
def TTSRequest.is_last_chunk (r : TTSRequest) : Bool :=
  decide (r.num_chunks - 1 ≤ r.chunk_index)

/-- A TTS session (`TTSSession` dataclass).  The `Queue` becomes a list
(front = next to dequeue); the threading `Event` `speech_finished`
becomes its set/unset bit. -/
structure TTSSession where
  mycroft_session_id : SessionId
  chunk_queue : List TTSRequest
  speech_finished : Bool
  is_finished : Bool
deriving DecidableEq, Repr

/-- `ForegroundChannel` IntEnum. -/
inductive ForegroundChannel
  | EFFECT
  | SPEECH
deriving DecidableEq, Repr

/-- Payload of an emitted bus `Message` (the `data` dict, with the fixed
field shape each topic uses in this file). -/
inductive EvData
  | sid (mycroft_session_id : SessionId)
  | chunk (mycroft_session_id : SessionId) (chunk_index num_chunks : Int)
      (uri : String) (text : Option String)
  | position (mycroft_session_id : SessionId) (position_ms : Int)
deriving DecidableEq, Repr

/-- A bus message: topic string plus payload. -/
structure Message where
  msg_type : String
  data : EvData
deriving DecidableEq, Repr

/-- Calls made into the Audio HAL, plus the bounded wait on the
per-session finished-signal, recorded as a trace. -/
inductive Effect
  | play_foreground (channel : ForegroundChannel) (file_path : String)
      (media_id : SessionId) (mycroft_session_id : SessionId)
  | stop_foreground (channel : ForegroundChannel)
  | wait_speech_finished (timeout : ℚ)
  | start_background (playlist : List String)
  | pause_background
  | resume_background
  | stop_background
deriving DecidableEq, Repr

/-- The session registry `self._sessions` (a Python dict, insertion
ordered): an association list with unique keys in any reachable state. -/
abbrev Registry := List (SessionId × TTSSession)

/-- `self._sessions.get(id)`. -/
def getSession : Registry → SessionId → Option TTSSession
  | [], _ => none
  | (k, v) :: rest, id => if k = id then some v else getSession rest id

/-- `self._sessions[id] = v`: replace in place if present, else append. -/
def setSession : Registry → SessionId → TTSSession → Registry
  | [], id, v => [(id, v)]
  | (k, w) :: rest, id, v =>
      if k = id then (id, v) :: rest else (k, w) :: setSession rest id v

/-- Mutable state of `AudioUserInterface` relevant to the claims. -/
structure AUIState where
  sessions : Registry
  mycroft_session_id : SessionId
  speech_ready : Nat
  stream_session_id : SessionId
  is_running : Bool
deriving DecidableEq, Repr

/-- State right after `__init__`/`initialize`: empty registry, no current
session, `Semaphore()` at its default value 1, no stream owner. -/
def initialState : AUIState :=
  ⟨[], none, 1, none, true⟩

/-- `_finish_tts_session`: emits `mycroft.tts.session.ended` then
`recognizer_loop:audio_output_end` for the session id. -/
def finish_tts_session (mycroft_session_id : SessionId) : List Message :=
  [⟨"mycroft.tts.session.ended", EvData.sid mycroft_session_id⟩,
   ⟨"recognizer_loop:audio_output_end", EvData.sid mycroft_session_id⟩]

/-- `handle_tts_session_start`: get-or-create the session record, reset
`is_finished`, make the id current; if the id differs from the previous
current id, stop any in-flight speech. -/
def handle_tts_session_start (s : AUIState) (mycroft_session_id : SessionId) :
    AUIState × List Effect :=
  let is_different_session := mycroft_session_id ≠ s.mycroft_session_id
  let session := (getSession s.sessions mycroft_session_id).getD
    ⟨mycroft_session_id, [], false, false⟩
  let sessions' := setSession s.sessions mycroft_session_id
    { session with is_finished := false }
  ({ s with sessions := sessions', mycroft_session_id := mycroft_session_id },
   if is_different_session then [Effect.stop_foreground ForegroundChannel.SPEECH]
   else [])

/-- `handle_tts_chunk`: drop the chunk if its session id is not the
current one; else append it to that session's queue and release the work
semaphore.  (If the id is current but has no registry entry, only an
error is logged.)  Emits no bus messages. -/
def handle_tts_chunk (s : AUIState) (uri : String) (mycroft_session_id : SessionId)
    (chunk_index num_chunks : Int) (text : Option String) :
    AUIState × List Effect × List Message :=
  if mycroft_session_id ≠ s.mycroft_session_id then
    (s, [], [])
  else
    match getSession s.sessions mycroft_session_id with
    | some session =>
        let request : TTSRequest := ⟨uri, chunk_index, num_chunks, text⟩
        ({ s with
            sessions := setSession s.sessions mycroft_session_id
              { session with chunk_queue := session.chunk_queue ++ [request] },
            speech_ready := s.speech_ready + 1 },
         [], [])
    | none => (s, [], [])

/-- `_stop_tts`: clear the current session id and stop the SPEECH
channel. -/
def stop_tts (s : AUIState) : AUIState × List Effect :=
  ({ s with mycroft_session_id := none },
   [Effect.stop_foreground ForegroundChannel.SPEECH])

/-- The cleanup loop inside `_speech_run`'s critical section: every
registered session whose id differs from the current one is popped, and
if it is not yet finished, `is_finished` is set and its termination
events are emitted. -/
def cleanupStale : Registry → SessionId → Registry × List Message
  | [], _ => ([], [])
  | (session_id, sess) :: rest, current =>
      let tail := cleanupStale rest current
      if session_id = current then
        ((session_id, sess) :: tail.1, tail.2)
      else
        (tail.1,
         (if sess.is_finished then [] else finish_tts_session session_id) ++ tail.2)

/-- Per-wake inputs from the external world: `os.path.isfile` and the
duration returned by `AudioHAL.play_foreground`. -/
structure HalOracle where
  isfile : String → Bool
  play_duration : Option ℚ

/-- Result of one wake of the speech playback loop: post state, HAL
effects in order, emitted messages in order, and whether the wake raised
an uncaught exception (the `assert` on the URI scheme), which would end
the whole loop. -/
structure WakeResult where
  state : AUIState
  effects : List Effect
  emitted : List Message
  crashed : Bool
deriving Repr

/-- One wake of `_speech_run`'s while-loop body, after
`self._speech_ready.acquire()` returns.  Mirrors lines 364-457 of
`audio_ui.py`: resolve the current session (skip everything if none),
clean up every other session, skip if no queued chunk, else dequeue one
chunk, emit `audio_output_start` and `chunk.started`, clear the
finished-signal, play the file if it exists and wait `duration + 0.5`
when a duration is reported, emit `chunk.ended`, and on the last chunk of
a not-yet-finished session run the termination path. -/
def speechWake (s : AUIState) (hal : HalOracle) : WakeResult :=
  match getSession s.sessions s.mycroft_session_id with
  | none => ⟨s, [], [], false⟩
  | some session =>
    let cleaned := cleanupStale s.sessions s.mycroft_session_id
    let sessions1 := cleaned.1
    let cleanupMsgs := cleaned.2
    match session.chunk_queue with
    | [] => ⟨{ s with sessions := sessions1 }, [], cleanupMsgs, false⟩
    | request :: restQueue =>
      let startMsg : Message :=
        ⟨"recognizer_loop:audio_output_start", EvData.sid session.mycroft_session_id⟩
      if "file://".data.isPrefixOf request.uri.data then
        let file_path := String.mk (request.uri.data.drop "file://".length)
        let startedMsg : Message :=
          ⟨"mycroft.tts.chunk.started",
           EvData.chunk session.mycroft_session_id request.chunk_index
             request.num_chunks request.uri request.text⟩
        let endedMsg : Message :=
          ⟨"mycroft.tts.chunk.ended",
           EvData.chunk session.mycroft_session_id request.chunk_index
             request.num_chunks request.uri request.text⟩
        let sessionAfterPlay : TTSSession :=
          { session with chunk_queue := restQueue, speech_finished := false }
        let playEffects :=
          if hal.isfile file_path then
            Effect.play_foreground ForegroundChannel.SPEECH file_path
                session.mycroft_session_id session.mycroft_session_id ::
              (match hal.play_duration with
               | some duration_sec =>
                   [Effect.wait_speech_finished (duration_sec + 1 / 2)]
               | none => [])
          else []
        if request.is_last_chunk && !session.is_finished then
          ⟨{ s with
              sessions := setSession sessions1 s.mycroft_session_id
                { sessionAfterPlay with is_finished := true } },
           playEffects,
           cleanupMsgs ++ [startMsg, startedMsg, endedMsg] ++
             finish_tts_session session.mycroft_session_id,
           false⟩
        else
          ⟨{ s with
              sessions := setSession sessions1 s.mycroft_session_id sessionAfterPlay },
           playEffects,
           cleanupMsgs ++ [startMsg, startedMsg, endedMsg],
           false⟩
      else
        -- `assert request.uri.startswith("file://")` fails: the exception
        -- escapes to the try around the whole loop, ending the thread.
        ⟨{ s with
            sessions := setSession sessions1 s.mycroft_session_id
              { session with chunk_queue := restQueue } },
         [], cleanupMsgs ++ [startMsg], true⟩

/-- A track entry of a `service.play` message: a plain URI string or a
(URI, mimetype) pair; `next(iter(track))` extracts the URI. -/
inductive Track
  | uri (u : String)
  | withMime (u : String) (mime : String)
deriving DecidableEq, Repr

/-- `next(iter(track))` / the string itself. -/
def Track.firstUri : Track → String
  | Track.uri u => u
  | Track.withMime u _ => u

/-- `handle_stream_play`: return immediately when `tracks` is empty (or
absent, since `data.get("tracks", [])` defaults to `[]`); else stop the
previous background stream, record the new owner, start the playlist and
emit `service.playing`. -/
def handle_stream_play (s : AUIState) (tracks : List Track)
    (mycroft_session_id : SessionId) : AUIState × List Effect × List Message :=
  match tracks with
  | [] => (s, [], [])
  | _ :: _ =>
    let uri_playlist := tracks.map Track.firstUri
    ({ s with stream_session_id := mycroft_session_id },
     [Effect.stop_background, Effect.start_background uri_playlist],
     [⟨"mycroft.audio.service.playing", EvData.sid mycroft_session_id⟩])

/-- `handle_stream_pause`: pause the background stream and emit
`service.paused`, only when the message's session id matches the stream
owner. -/
def handle_stream_pause (s : AUIState) (mycroft_session_id : SessionId) :
    AUIState × List Effect × List Message :=
  if mycroft_session_id = s.stream_session_id then
    (s, [Effect.pause_background],
     [⟨"mycroft.audio.service.paused", EvData.sid mycroft_session_id⟩])
  else (s, [], [])

/-- `handle_stream_resume`: resume the background stream and emit
`service.resumed`, only when the session id matches the stream owner. -/
def handle_stream_resume (s : AUIState) (mycroft_session_id : SessionId) :
    AUIState × List Effect × List Message :=
  if mycroft_session_id = s.stream_session_id then
    (s, [Effect.resume_background],
     [⟨"mycroft.audio.service.resumed", EvData.sid mycroft_session_id⟩])
  else (s, [], [])

/-- `handle_stream_stop`: on an owner match, pause (never actually stop)
the background stream and emit `service.stopped`. -/
def handle_stream_stop (s : AUIState) (mycroft_session_id : SessionId) :
    AUIState × List Effect × List Message :=
  if mycroft_session_id = s.stream_session_id then
    (s, [Effect.pause_background],
     [⟨"mycroft.audio.service.stopped", EvData.sid mycroft_session_id⟩])
  else (s, [], [])

/-- `send_stream_position`: emit nothing unless the background stream is
playing and the reported position is non-negative; else emit one
`service.position` carrying the stream owner and the position. -/
def send_stream_position (s : AUIState) (is_background_playing : Bool)
    (position_ms : Int) : List Message :=
  if !is_background_playing then []
  else if 0 ≤ position_ms then
    [⟨"mycroft.audio.service.position",
      EvData.position s.stream_session_id position_ms⟩]
  else []

/-- One cycle of `RepeatingTimer.run`: wall-clock time the invoked
function took, and whether it raised (the raise is caught and logged). -/
structure TimerCycle where
  elapsed : ℚ
  raises : Bool
deriving DecidableEq, Repr

namespace RepeatingTimer

/-- The loop of `RepeatingTimer.run`, threading `seconds_to_wait`:
returns the sleep performed before each invocation, one entry per cycle.
An exception from the function is caught, so the recursion continues
regardless of `raises`, and `end_time` is still taken afterwards. -/
def runWaits (interval : ℚ) (seconds_to_wait : ℚ) :
    List TimerCycle → List ℚ
  | [] => []
  | c :: rest =>
      seconds_to_wait ::
        runWaits interval (max 0 (interval - c.elapsed)) rest

/-- `RepeatingTimer.run` for a (non-cancelled) run of the given cycles:
the initial wait is the nominal interval. -/
def run (interval : ℚ) (cycles : List TimerCycle) : List ℚ :=
  runWaits interval interval cycles

end RepeatingTimer

/-- Session id carried in a payload (`data["mycroft_session_id"]`). -/
def dataSid : EvData → SessionId
  | EvData.sid i => i
  | EvData.chunk i _ _ _ _ => i
  | EvData.position i _ => i

/-- Number of messages in a trace with the given topic and session id. -/
def countMsg (msgs : List Message) (topic : String) (id : SessionId) : Nat :=
  msgs.countP (fun m => decide (m.msg_type = topic ∧ dataSid m.data = id))

/-- Registry well-formedness (holds in every reachable state): keys are
unique, and each session record stores its own key as its id. -/
def RegistryWF (r : Registry) : Prop :=
  (r.map Prod.fst).Nodup ∧ ∀ p ∈ r, (Prod.snd p).mycroft_session_id = Prod.fst p

instance : DecidablePred RegistryWF := fun r =>
  inferInstanceAs (Decidable ((r.map Prod.fst).Nodup ∧
    ∀ p ∈ r, (Prod.snd p).mycroft_session_id = Prod.fst p))

/-- The two session-termination topics emitted by `_finish_tts_session`. -/
def TermTopic (t : String) : Prop :=
  t = "mycroft.tts.session.ended" ∨ t = "recognizer_loop:audio_output_end"

/-! ### Registry lemmas -/

theorem getSession_eq_none_of_not_mem (r : Registry) (id : SessionId)
    (h : id ∉ r.map Prod.fst) : getSession r id = none := by
  induction r with
  | nil => rfl
  | cons p rest ih =>
      obtain ⟨k, v⟩ := p
      simp only [List.map_cons, List.mem_cons, not_or] at h
      have hk : ¬k = id := fun hk => h.1 hk.symm
      simp [getSession, hk, ih h.2]

theorem getSession_mem (r : Registry) (id : SessionId) (v : TTSSession)
    (h : getSession r id = some v) : (id, v) ∈ r := by
  induction r with
  | nil => simp [getSession] at h
  | cons p rest ih =>
      obtain ⟨k, w⟩ := p
      by_cases hk : k = id
      · subst hk
        obtain rfl : w = v := by simpa [getSession] using h
        exact List.mem_cons_self _ _
      · simp only [getSession, if_neg hk] at h
        exact List.mem_cons_of_mem _ (ih h)

theorem getSession_setSession (r : Registry) (k id : SessionId) (v : TTSSession) :
    getSession (setSession r k v) id = if k = id then some v else getSession r id := by
  induction r with
  | nil => simp [setSession, getSession]
  | cons p rest ih =>
      obtain ⟨k', w⟩ := p
      by_cases h1 : k' = k
      · subst h1
        by_cases h2 : k' = id <;> simp [setSession, getSession, h2]
      · by_cases h2 : k' = id
        · subst h2
          have : ¬k = k' := fun hk => h1 hk.symm
          simp [setSession, getSession, h1, this]
        · simp [setSession, getSession, h1, h2, ih]

theorem cleanupStale_fst (r : Registry) (current : SessionId) :
    (cleanupStale r current).1 = r.filter (fun p => decide (p.1 = current)) := by
  induction r with
  | nil => rfl
  | cons p rest ih =>
      obtain ⟨k, v⟩ := p
      by_cases h : k = current <;> simp [cleanupStale, h, ih]

theorem getSession_cleanup_ne (r : Registry) (current id : SessionId)
    (h : id ≠ current) : getSession (cleanupStale r current).1 id = none := by
  apply getSession_eq_none_of_not_mem
  rw [cleanupStale_fst]
  intro hmem
  simp only [List.mem_map] at hmem
  obtain ⟨p, hp, hpid⟩ := hmem
  have hcur := List.of_mem_filter hp
  simp only [decide_eq_true_eq] at hcur
  exact h (hpid ▸ hcur)

theorem getSession_cleanup_cur (r : Registry) (current : SessionId) :
    getSession (cleanupStale r current).1 current = getSession r current := by
  induction r with
  | nil => rfl
  | cons p rest ih =>
      obtain ⟨k, v⟩ := p
      by_cases h : k = current
      · subst h; simp [cleanupStale, getSession]
      · simp [cleanupStale, getSession, h, ih]

/-! ### Counting lemmas -/

theorem countMsg_append (a b : List Message) (t : String) (id : SessionId) :
    countMsg (a ++ b) t id = countMsg a t id + countMsg b t id := by
  simp [countMsg, List.countP_append]

theorem countMsg_finish (t : String) (ht : TermTopic t) (i j : SessionId) :
    countMsg (finish_tts_session j) t i = if j = i then 1 else 0 := by
  rcases ht with rfl | rfl <;> by_cases h : j = i <;>
    simp [countMsg, finish_tts_session, dataSid, List.countP_cons, h]

theorem countMsg_finish_ne (t : String) (i j : SessionId) (h : j ≠ i) :
    countMsg (finish_tts_session j) t i = 0 := by
  simp [countMsg, finish_tts_session, dataSid, List.countP_cons, h]

theorem countMsg_cleanup_cur (r : Registry) (current : SessionId) (t : String) :
    countMsg (cleanupStale r current).2 t current = 0 := by
  induction r with
  | nil => rfl
  | cons p rest ih =>
      obtain ⟨k, v⟩ := p
      by_cases hk : k = current
      · simp [cleanupStale, hk, ih]
      · by_cases hf : v.is_finished <;>
          simp [cleanupStale, hk, hf, countMsg_append, ih, countMsg_finish_ne t current k hk]

theorem countMsg_cleanup_of_none (r : Registry) (current id : SessionId) (t : String)
    (hid : getSession r id = none) :
    countMsg (cleanupStale r current).2 t id = 0 := by
  induction r with
  | nil => rfl
  | cons p rest ih =>
      obtain ⟨k, v⟩ := p
      by_cases hk : k = id
      · subst hk; simp [getSession] at hid
      · simp only [getSession, if_neg hk] at hid
        by_cases hc : k = current
        · simp [cleanupStale, hc, ih hid]
        · by_cases hf : v.is_finished <;>
            simp [cleanupStale, hc, hf, countMsg_append, ih hid,
              countMsg_finish_ne t id k hk]

theorem countMsg_cleanup_of_finished (r : Registry) (current id : SessionId)
    (t : String) (v : TTSSession) (hid : getSession r id = some v)
    (hfin : v.is_finished = true) (hnodup : (r.map Prod.fst).Nodup) :
    countMsg (cleanupStale r current).2 t id = 0 := by
  induction r with
  | nil => simp [getSession] at hid
  | cons p rest ih =>
      obtain ⟨k, w⟩ := p
      simp only [List.map_cons, List.nodup_cons] at hnodup
      by_cases hk : k = id
      · subst hk
        obtain rfl : w = v := by simpa [getSession] using hid
        have hrest : getSession rest k = none :=
          getSession_eq_none_of_not_mem rest k hnodup.1
        by_cases hc : k = current
        · subst hc
          exact countMsg_cleanup_cur ((k, w) :: rest) k t
        · simp [cleanupStale, hc, hfin, countMsg_cleanup_of_none rest current k t hrest]
      · simp only [getSession, if_neg hk] at hid
        by_cases hc : k = current
        · simp [cleanupStale, hc, ih hid hnodup.2]
        · by_cases hf : w.is_finished <;>
            simp [cleanupStale, hc, hf, countMsg_append, ih hid hnodup.2,
              countMsg_finish_ne t id k hk]

theorem countMsg_cleanup_of_unfinished (r : Registry) (current id : SessionId)
    (t : String) (ht : TermTopic t) (v : TTSSession) (hid : getSession r id = some v)
    (hfin : v.is_finished = false) (hne : id ≠ current)
    (hnodup : (r.map Prod.fst).Nodup) :
    countMsg (cleanupStale r current).2 t id = 1 := by
  induction r with
  | nil => simp [getSession] at hid
  | cons p rest ih =>
      obtain ⟨k, w⟩ := p
      simp only [List.map_cons, List.nodup_cons] at hnodup
      by_cases hk : k = id
      · subst hk
        obtain rfl : w = v := by simpa [getSession] using hid
        have hrest : getSession rest k = none :=
          getSession_eq_none_of_not_mem rest k hnodup.1
        have hc : ¬k = current := hne
        simp [cleanupStale, hc, hfin, countMsg_append,
          countMsg_cleanup_of_none rest current k t hrest,
          countMsg_finish t ht k k]
      · simp only [getSession, if_neg hk] at hid
        by_cases hc : k = current
        · simp [cleanupStale, hc, ih hid hnodup.2]
        · by_cases hf : w.is_finished <;>
            simp [cleanupStale, hc, hf, countMsg_append, ih hid hnodup.2,
              countMsg_finish_ne t id k hk]

theorem countMsg_chunk_msgs (t : String) (ht : TermTopic t) (id sid : SessionId)
    (ci nc : Int) (u : String) (tx : Option String) :
    countMsg [⟨"recognizer_loop:audio_output_start", EvData.sid sid⟩,
              ⟨"mycroft.tts.chunk.started", EvData.chunk sid ci nc u tx⟩,
              ⟨"mycroft.tts.chunk.ended", EvData.chunk sid ci nc u tx⟩] t id = 0 := by
  rcases ht with rfl | rfl <;> simp [countMsg, List.countP_cons]

theorem countMsg_start_msg (t : String) (ht : TermTopic t) (id sid : SessionId) :
    countMsg [⟨"recognizer_loop:audio_output_start", EvData.sid sid⟩] t id = 0 := by
  rcases ht with rfl | rfl <;> simp [countMsg, List.countP_cons]

/-! ### Branch characterizations of one wake of the speech playback loop -/

theorem speechWake_none (s : AUIState) (hal : HalOracle)
    (h : getSession s.sessions s.mycroft_session_id = none) :
    speechWake s hal = ⟨s, [], [], false⟩ := by
  simp [speechWake, h]

theorem speechWake_empty_queue (s : AUIState) (hal : HalOracle) (session : TTSSession)
    (h : getSession s.sessions s.mycroft_session_id = some session)
    (hq : session.chunk_queue = []) :
    speechWake s hal =
      ⟨{ s with sessions := (cleanupStale s.sessions s.mycroft_session_id).1 },
       [], (cleanupStale s.sessions s.mycroft_session_id).2, false⟩ := by
  simp [speechWake, h, hq]

theorem speechWake_bad_uri (s : AUIState) (hal : HalOracle) (session : TTSSession)
    (request : TTSRequest) (restQueue : List TTSRequest)
    (h : getSession s.sessions s.mycroft_session_id = some session)
    (hq : session.chunk_queue = request :: restQueue)
    (huri : "file://".data.isPrefixOf request.uri.data = false) :
    speechWake s hal =
      ⟨{ s with sessions := (setSession (cleanupStale s.sessions s.mycroft_session_id).1
            s.mycroft_session_id { session with chunk_queue := restQueue }) },
       [],
       (cleanupStale s.sessions s.mycroft_session_id).2 ++
         [⟨"recognizer_loop:audio_output_start", EvData.sid session.mycroft_session_id⟩],
       true⟩ := by
  simp [speechWake, h, hq, huri]

theorem speechWake_chunk_last (s : AUIState) (hal : HalOracle) (session : TTSSession)
    (request : TTSRequest) (restQueue : List TTSRequest)
    (h : getSession s.sessions s.mycroft_session_id = some session)
    (hq : session.chunk_queue = request :: restQueue)
    (huri : "file://".data.isPrefixOf request.uri.data = true)
    (hlast : (request.is_last_chunk && !session.is_finished) = true) :
    speechWake s hal =
      ⟨{ s with sessions := (setSession (cleanupStale s.sessions s.mycroft_session_id).1
            s.mycroft_session_id
            { session with chunk_queue := restQueue, speech_finished := false, is_finished := true }) },
       (if hal.isfile (String.mk (request.uri.data.drop "file://".length)) then
          Effect.play_foreground ForegroundChannel.SPEECH
              (String.mk (request.uri.data.drop "file://".length))
              session.mycroft_session_id session.mycroft_session_id ::
            (match hal.play_duration with
             | some duration_sec => [Effect.wait_speech_finished (duration_sec + 1 / 2)]
             | none => [])
        else []),
       (cleanupStale s.sessions s.mycroft_session_id).2 ++
         [⟨"recognizer_loop:audio_output_start", EvData.sid session.mycroft_session_id⟩,
          ⟨"mycroft.tts.chunk.started",
           EvData.chunk session.mycroft_session_id request.chunk_index
             request.num_chunks request.uri request.text⟩,
          ⟨"mycroft.tts.chunk.ended",
           EvData.chunk session.mycroft_session_id request.chunk_index
             request.num_chunks request.uri request.text⟩] ++
         finish_tts_session session.mycroft_session_id,
       false⟩ := by
  simp [speechWake, h, hq, huri, hlast]

theorem speechWake_chunk_notlast (s : AUIState) (hal : HalOracle) (session : TTSSession)
    (request : TTSRequest) (restQueue : List TTSRequest)
    (h : getSession s.sessions s.mycroft_session_id = some session)
    (hq : session.chunk_queue = request :: restQueue)
    (huri : "file://".data.isPrefixOf request.uri.data = true)
    (hlast : (request.is_last_chunk && !session.is_finished) = false) :
    speechWake s hal =
      ⟨{ s with sessions := (setSession (cleanupStale s.sessions s.mycroft_session_id).1
            s.mycroft_session_id
            { session with chunk_queue := restQueue, speech_finished := false }) },
       (if hal.isfile (String.mk (request.uri.data.drop "file://".length)) then
          Effect.play_foreground ForegroundChannel.SPEECH
              (String.mk (request.uri.data.drop "file://".length))
              session.mycroft_session_id session.mycroft_session_id ::
            (match hal.play_duration with
             | some duration_sec => [Effect.wait_speech_finished (duration_sec + 1 / 2)]
             | none => [])
        else []),
       (cleanupStale s.sessions s.mycroft_session_id).2 ++
         [⟨"recognizer_loop:audio_output_start", EvData.sid session.mycroft_session_id⟩,
          ⟨"mycroft.tts.chunk.started",
           EvData.chunk session.mycroft_session_id request.chunk_index
             request.num_chunks request.uri request.text⟩,
          ⟨"mycroft.tts.chunk.ended",
           EvData.chunk session.mycroft_session_id request.chunk_index
             request.num_chunks request.uri request.text⟩],
       false⟩ := by
  simp [speechWake, h, hq, huri, hlast]

/-! ### Timer lemmas -/

theorem runWaits_length (interval : ℚ) (cycles : List TimerCycle) :
    ∀ w, (RepeatingTimer.runWaits interval w cycles).length = cycles.length := by
  induction cycles with
  | nil => intro w; rfl
  | cons c rest ih => intro w; simp [RepeatingTimer.runWaits, ih]

theorem runWaits_raises_irrelevant (interval : ℚ) (cycles : List TimerCycle) :
    ∀ w, RepeatingTimer.runWaits interval w
        (cycles.map fun c => ⟨c.elapsed, false⟩) =
      RepeatingTimer.runWaits interval w cycles := by
  induction cycles with
  | nil => intro w; rfl
  | cons c rest ih => intro w; simp [RepeatingTimer.runWaits, ih]

theorem runWaits_get? (interval : ℚ) (cycles : List TimerCycle) :
    ∀ w k c, cycles.get? k = some c → k + 1 < cycles.length →
      (RepeatingTimer.runWaits interval w cycles).get? (k + 1) =
        some (max 0 (interval - c.elapsed)) := by
  induction cycles with
  | nil => intro w k c hc _; simp at hc
  | cons c0 rest ih =>
      intro w k c hc hk
      cases k with
      | zero =>
          obtain rfl : c0 = c := by simpa using hc
          cases rest with
          | nil => simp at hk
          | cons c1 rest => simp [RepeatingTimer.runWaits]
      | succ k =>
          simp only [RepeatingTimer.runWaits, List.get?_cons_succ]
          exact ih _ k c (by simpa using hc) (by simpa using hk)

/-! ### The claims -/

/-- C2: a TTS chunk whose session id differs from the current session id
is dropped: the handler leaves the state unchanged (no queue changes, the
work semaphore is not released), performs no HAL call, and emits no bus
message — in particular no `mycroft.tts.chunk.started` is ever emitted
for that chunk, since it is never queued. -/
theorem C2_noncurrent_chunk_dropped (s : AUIState) (uri : String)
    (mycroft_session_id : SessionId) (chunk_index num_chunks : Int)
    (text : Option String) (h : mycroft_session_id ≠ s.mycroft_session_id) :
    handle_tts_chunk s uri mycroft_session_id chunk_index num_chunks text =
      (s, [], []) := by
  simp [handle_tts_chunk, h]

theorem C2_noncurrent_chunk_dropped_witness :
    (some "B" : SessionId) ≠
      (handle_tts_session_start initialState (some "A")).1.mycroft_session_id ∧
    handle_tts_chunk (handle_tts_session_start initialState (some "A")).1
        "file:///b0.wav" (some "B") 0 1 none =
      ((handle_tts_session_start initialState (some "A")).1, [], []) :=
  ⟨by decide,
   C2_noncurrent_chunk_dropped (handle_tts_session_start initialState (some "A")).1
     "file:///b0.wav" (some "B") 0 1 none (by decide)⟩

/-- C6: `service.pause`, `service.resume` and `service.stop` with a
session id different from the current stream owner change no state, make
no HAL call and emit nothing; with the owner's id each handler makes
exactly its HAL call and emits exactly one corresponding event carrying
that session id. -/
theorem C6_stream_control_owner_gating (s : AUIState) (mycroft_session_id : SessionId) :
    (mycroft_session_id ≠ s.stream_session_id →
      handle_stream_pause s mycroft_session_id = (s, [], []) ∧
      handle_stream_resume s mycroft_session_id = (s, [], []) ∧
      handle_stream_stop s mycroft_session_id = (s, [], [])) ∧
    (mycroft_session_id = s.stream_session_id →
      handle_stream_pause s mycroft_session_id =
        (s, [Effect.pause_background],
         [⟨"mycroft.audio.service.paused", EvData.sid mycroft_session_id⟩]) ∧
      handle_stream_resume s mycroft_session_id =
        (s, [Effect.resume_background],
         [⟨"mycroft.audio.service.resumed", EvData.sid mycroft_session_id⟩]) ∧
      handle_stream_stop s mycroft_session_id =
        (s, [Effect.pause_background],
         [⟨"mycroft.audio.service.stopped", EvData.sid mycroft_session_id⟩])) := by
  constructor <;> intro h <;>
    simp [handle_stream_pause, handle_stream_resume, handle_stream_stop, h]

theorem C6_stream_control_owner_gating_witness :
    ((some "Y" : SessionId) ≠ (⟨[], none, 1, some "X", true⟩ : AUIState).stream_session_id ∧
     handle_stream_pause ⟨[], none, 1, some "X", true⟩ (some "Y") =
       (⟨[], none, 1, some "X", true⟩, [], [])) ∧
    ((some "X" : SessionId) = (⟨[], none, 1, some "X", true⟩ : AUIState).stream_session_id ∧
     handle_stream_stop ⟨[], none, 1, some "X", true⟩ (some "X") =
       (⟨[], none, 1, some "X", true⟩, [Effect.pause_background],
        [⟨"mycroft.audio.service.stopped", EvData.sid (some "X")⟩])) :=
  ⟨⟨by decide,
    ((C6_stream_control_owner_gating ⟨[], none, 1, some "X", true⟩ (some "Y")).1
      (by decide)).1⟩,
   ⟨rfl,
    (((C6_stream_control_owner_gating ⟨[], none, 1, some "X", true⟩ (some "X")).2
      rfl).2).2⟩⟩

/-- C7: every invocation of the repeating timer's function is followed by
the next cycle (exceptions are caught, so the raises flags change
nothing, and no cycle is lost), and the sleep before invocation k+1 is
exactly `max 0 (interval - elapsed_k)`. -/
theorem C7_repeating_timer_drift_free (interval : ℚ) (cycles : List TimerCycle) :
    (RepeatingTimer.run interval cycles).length = cycles.length ∧
    RepeatingTimer.run interval (cycles.map fun c => ⟨c.elapsed, false⟩) =
      RepeatingTimer.run interval cycles ∧
    ∀ k c, cycles.get? k = some c → k + 1 < cycles.length →
      (RepeatingTimer.run interval cycles).get? (k + 1) =
        some (max 0 (interval - c.elapsed)) :=
  ⟨runWaits_length interval cycles interval,
   runWaits_raises_irrelevant interval cycles interval,
   fun k c hc hk => runWaits_get? interval cycles interval k c hc hk⟩

theorem C7_repeating_timer_drift_free_witness :
    ([⟨2, false⟩, ⟨0, true⟩] : List TimerCycle).get? 0 = some ⟨2, false⟩ ∧
    0 + 1 < ([⟨2, false⟩, ⟨0, true⟩] : List TimerCycle).length ∧
    (RepeatingTimer.run 1 [⟨2, false⟩, ⟨0, true⟩]).get? (0 + 1) =
      some (max 0 (1 - (⟨2, false⟩ : TimerCycle).elapsed)) :=
  ⟨rfl, by decide,
   (C7_repeating_timer_drift_free 1 [⟨2, false⟩, ⟨0, true⟩]).2.2 0 ⟨2, false⟩ rfl
     (by decide)⟩

/-- C8: the periodic position reporter emits nothing while the HAL
reports the background stream is not playing, and every message it emits
is one `service.position` carrying the current stream-owner session id
and a non-negative `position_ms`. -/
theorem C8_position_reporter_guarded (s : AUIState) (is_background_playing : Bool)
    (position_ms : Int) :
    (is_background_playing = false →
      send_stream_position s is_background_playing position_ms = []) ∧
    ∀ m ∈ send_stream_position s is_background_playing position_ms,
      m.msg_type = "mycroft.audio.service.position" ∧
      m.data = EvData.position s.stream_session_id position_ms ∧ 0 ≤ position_ms := by
  constructor
  · intro h; simp [send_stream_position, h]
  · intro m hm
    cases is_background_playing with
    | false => simp [send_stream_position] at hm
    | true =>
        by_cases hp : (0 : Int) ≤ position_ms
        · simp only [send_stream_position, Bool.not_true, Bool.false_eq_true,
            if_false, if_pos hp, List.mem_singleton] at hm
          subst hm
          exact ⟨rfl, rfl, hp⟩
        · simp [send_stream_position, hp] at hm

theorem C8_position_reporter_guarded_witness :
    ((⟨"mycroft.audio.service.position", EvData.position (some "X") 500⟩ : Message) ∈
      send_stream_position ⟨[], none, 1, some "X", true⟩ true 500) ∧
    ((⟨"mycroft.audio.service.position", EvData.position (some "X") 500⟩ : Message).msg_type =
        "mycroft.audio.service.position" ∧
     (⟨"mycroft.audio.service.position", EvData.position (some "X") 500⟩ : Message).data =
        EvData.position (⟨[], none, 1, some "X", true⟩ : AUIState).stream_session_id 500 ∧
     (0 : Int) ≤ 500) :=
  ⟨by decide,
   (C8_position_reporter_guarded ⟨[], none, 1, some "X", true⟩ true 500).2
     ⟨"mycroft.audio.service.position", EvData.position (some "X") 500⟩ (by decide)⟩

/-- C9: on an owner match `handle_stream_stop` performs exactly the state
change of `handle_stream_pause` — it pauses the background stream via the
HAL, leaving it resumable — and the two handlers differ only in the topic
of the emitted event (`service.stopped` instead of `service.paused`). -/
theorem C9_stop_is_pause_up_to_topic (s : AUIState) (mycroft_session_id : SessionId) :
    handle_stream_stop s mycroft_session_id =
      ((handle_stream_pause s mycroft_session_id).1,
       (handle_stream_pause s mycroft_session_id).2.1,
       (handle_stream_pause s mycroft_session_id).2.2.map
         (fun m => if m.msg_type = "mycroft.audio.service.paused" then
            ⟨"mycroft.audio.service.stopped", m.data⟩ else m)) ∧
    (mycroft_session_id = s.stream_session_id →
      (handle_stream_stop s mycroft_session_id).2.1 = [Effect.pause_background] ∧
      (handle_stream_stop s mycroft_session_id).1 = s) := by
  by_cases h : mycroft_session_id = s.stream_session_id <;>
    simp [handle_stream_stop, handle_stream_pause, h]

theorem C9_stop_is_pause_up_to_topic_witness :
    (handle_stream_stop ⟨[], none, 1, some "X", true⟩ (some "X") =
      ((handle_stream_pause ⟨[], none, 1, some "X", true⟩ (some "X")).1,
       (handle_stream_pause ⟨[], none, 1, some "X", true⟩ (some "X")).2.1,
       (handle_stream_pause ⟨[], none, 1, some "X", true⟩ (some "X")).2.2.map
         (fun m => if m.msg_type = "mycroft.audio.service.paused" then
            ⟨"mycroft.audio.service.stopped", m.data⟩ else m))) ∧
    ((some "X" : SessionId) = (⟨[], none, 1, some "X", true⟩ : AUIState).stream_session_id ∧
     (handle_stream_stop ⟨[], none, 1, some "X", true⟩ (some "X")).2.1 =
        [Effect.pause_background] ∧
     (handle_stream_stop ⟨[], none, 1, some "X", true⟩ (some "X")).1 =
        ⟨[], none, 1, some "X", true⟩) :=
  ⟨(C9_stop_is_pause_up_to_topic ⟨[], none, 1, some "X", true⟩ (some "X")).1,
   ⟨rfl, (C9_stop_is_pause_up_to_topic ⟨[], none, 1, some "X", true⟩ (some "X")).2 rfl⟩⟩

/-- C10: a `service.play` with an absent or empty `tracks` list (the
handler's `data.get("tracks", [])` makes both the empty list) is a
complete no-op: state unchanged (in particular the stream owner), no HAL
call — so the playing background stream is not stopped — and no event. -/
theorem C10_stream_play_no_tracks_noop (s : AUIState) (mycroft_session_id : SessionId) :
    handle_stream_play s [] mycroft_session_id = (s, [], []) := rfl

/-- C4: when the dequeued chunk's file exists, the playback loop calls
the HAL once; if the HAL reports a duration `d` it then waits on the
finished-signal with timeout exactly `d + 0.5` seconds, and if the HAL
reports no duration it does not wait at all; in either case the wake then
emits `mycroft.tts.chunk.ended` and does not fail. -/
theorem C4_duration_wait_exact (s : AUIState) (hal : HalOracle)
    (session : TTSSession) (request : TTSRequest) (restQueue : List TTSRequest)
    (hsess : getSession s.sessions s.mycroft_session_id = some session)
    (hq : session.chunk_queue = request :: restQueue)
    (huri : "file://".data.isPrefixOf request.uri.data = true)
    (hfile : hal.isfile (String.mk (request.uri.data.drop "file://".length)) = true) :
    (speechWake s hal).crashed = false ∧
    (∀ d, hal.play_duration = some d →
      (speechWake s hal).effects =
        [Effect.play_foreground ForegroundChannel.SPEECH
           (String.mk (request.uri.data.drop "file://".length))
           session.mycroft_session_id session.mycroft_session_id,
         Effect.wait_speech_finished (d + 1 / 2)]) ∧
    (hal.play_duration = none →
      (speechWake s hal).effects =
        [Effect.play_foreground ForegroundChannel.SPEECH
           (String.mk (request.uri.data.drop "file://".length))
           session.mycroft_session_id session.mycroft_session_id]) ∧
    (⟨"mycroft.tts.chunk.ended",
      EvData.chunk session.mycroft_session_id request.chunk_index
        request.num_chunks request.uri request.text⟩ : Message) ∈
      (speechWake s hal).emitted := by
  cases hlast : (request.is_last_chunk && !session.is_finished) with
  | true =>
      rw [speechWake_chunk_last s hal session request restQueue hsess hq huri hlast]
      refine ⟨rfl, ?_, ?_, ?_⟩
      · intro d hd; simp [hfile, hd]
      · intro hd; simp [hfile, hd]
      · simp
  | false =>
      rw [speechWake_chunk_notlast s hal session request restQueue hsess hq huri hlast]
      refine ⟨rfl, ?_, ?_, ?_⟩
      · intro d hd; simp [hfile, hd]
      · intro hd; simp [hfile, hd]
      · simp

theorem C4_duration_wait_exact_witness :
    getSession (⟨[(some "A", ⟨some "A", [⟨"file:///a0.wav", 0, 2, none⟩], false, false⟩)],
        some "A", 0, none, true⟩ : AUIState).sessions
      (⟨[(some "A", ⟨some "A", [⟨"file:///a0.wav", 0, 2, none⟩], false, false⟩)],
        some "A", 0, none, true⟩ : AUIState).mycroft_session_id =
      some ⟨some "A", [⟨"file:///a0.wav", 0, 2, none⟩], false, false⟩ ∧
    (⟨some "A", [⟨"file:///a0.wav", 0, 2, none⟩], false, false⟩ : TTSSession).chunk_queue =
      (⟨"file:///a0.wav", 0, 2, none⟩ : TTSRequest) :: [] ∧
    "file://".data.isPrefixOf (⟨"file:///a0.wav", 0, 2, none⟩ : TTSRequest).uri.data = true ∧
    (⟨(fun _ => true), some 2⟩ : HalOracle).isfile
      (String.mk ((⟨"file:///a0.wav", 0, 2, none⟩ : TTSRequest).uri.data.drop "file://".length)) = true ∧
    (speechWake ⟨[(some "A", ⟨some "A", [⟨"file:///a0.wav", 0, 2, none⟩], false, false⟩)],
        some "A", 0, none, true⟩ ⟨(fun _ => true), some 2⟩).effects =
      [Effect.play_foreground ForegroundChannel.SPEECH
         (String.mk ((⟨"file:///a0.wav", 0, 2, none⟩ : TTSRequest).uri.data.drop "file://".length))
         (some "A") (some "A"),
       Effect.wait_speech_finished ((2 : ℚ) + 1 / 2)] :=
  ⟨rfl, rfl, by decide, rfl,
   ((C4_duration_wait_exact
      ⟨[(some "A", ⟨some "A", [⟨"file:///a0.wav", 0, 2, none⟩], false, false⟩)],
        some "A", 0, none, true⟩
      ⟨(fun _ => true), some 2⟩
      ⟨some "A", [⟨"file:///a0.wav", 0, 2, none⟩], false, false⟩
      ⟨"file:///a0.wav", 0, 2, none⟩ [] rfl rfl (by decide) rfl).2.1) 2 rfl⟩

/-- C5: when the dequeued chunk's local file does not exist, the playback
step is skipped entirely (no HAL play, no wait — no effects at all), yet
`mycroft.tts.chunk.ended` is still emitted with the chunk's descriptor,
and for a last chunk of a not-yet-finished session the termination events
still fire, so the session completes instead of stalling. -/
theorem C5_missing_file_skips_playback (s : AUIState) (hal : HalOracle)
    (session : TTSSession) (request : TTSRequest) (restQueue : List TTSRequest)
    (hsess : getSession s.sessions s.mycroft_session_id = some session)
    (hq : session.chunk_queue = request :: restQueue)
    (huri : "file://".data.isPrefixOf request.uri.data = true)
    (hfile : hal.isfile (String.mk (request.uri.data.drop "file://".length)) = false) :
    (speechWake s hal).crashed = false ∧
    (speechWake s hal).effects = [] ∧
    (⟨"mycroft.tts.chunk.ended",
      EvData.chunk session.mycroft_session_id request.chunk_index
        request.num_chunks request.uri request.text⟩ : Message) ∈
      (speechWake s hal).emitted ∧
    (request.is_last_chunk = true → session.is_finished = false →
      (⟨"mycroft.tts.session.ended",
        EvData.sid session.mycroft_session_id⟩ : Message) ∈ (speechWake s hal).emitted ∧
      (⟨"recognizer_loop:audio_output_end",
        EvData.sid session.mycroft_session_id⟩ : Message) ∈ (speechWake s hal).emitted) := by
  cases hlast : (request.is_last_chunk && !session.is_finished) with
  | true =>
      rw [speechWake_chunk_last s hal session request restQueue hsess hq huri hlast]
      refine ⟨rfl, by simp [hfile], by simp, ?_⟩
      intro _ _
      constructor <;> simp [finish_tts_session]
  | false =>
      rw [speechWake_chunk_notlast s hal session request restQueue hsess hq huri hlast]
      refine ⟨rfl, by simp [hfile], by simp, ?_⟩
      intro h1 h2
      rw [h1, h2] at hlast
      simp at hlast

theorem C5_missing_file_skips_playback_witness :
    getSession (⟨[(some "A", ⟨some "A", [⟨"file:///gone.wav", 1, 2, none⟩], false, false⟩)],
        some "A", 0, none, true⟩ : AUIState).sessions
      (⟨[(some "A", ⟨some "A", [⟨"file:///gone.wav", 1, 2, none⟩], false, false⟩)],
        some "A", 0, none, true⟩ : AUIState).mycroft_session_id =
      some ⟨some "A", [⟨"file:///gone.wav", 1, 2, none⟩], false, false⟩ ∧
    (⟨some "A", [⟨"file:///gone.wav", 1, 2, none⟩], false, false⟩ : TTSSession).chunk_queue =
      (⟨"file:///gone.wav", 1, 2, none⟩ : TTSRequest) :: [] ∧
    "file://".data.isPrefixOf (⟨"file:///gone.wav", 1, 2, none⟩ : TTSRequest).uri.data = true ∧
    (⟨(fun _ => false), none⟩ : HalOracle).isfile
      (String.mk ((⟨"file:///gone.wav", 1, 2, none⟩ : TTSRequest).uri.data.drop "file://".length)) = false ∧
    (speechWake ⟨[(some "A", ⟨some "A", [⟨"file:///gone.wav", 1, 2, none⟩], false, false⟩)],
        some "A", 0, none, true⟩ ⟨(fun _ => false), none⟩).effects = [] ∧
    (⟨"mycroft.tts.session.ended", EvData.sid (some "A")⟩ : Message) ∈
      (speechWake ⟨[(some "A", ⟨some "A", [⟨"file:///gone.wav", 1, 2, none⟩], false, false⟩)],
        some "A", 0, none, true⟩ ⟨(fun _ => false), none⟩).emitted :=
  ⟨rfl, rfl, by decide, rfl,
   (C5_missing_file_skips_playback
      ⟨[(some "A", ⟨some "A", [⟨"file:///gone.wav", 1, 2, none⟩], false, false⟩)],
        some "A", 0, none, true⟩
      ⟨(fun _ => false), none⟩
      ⟨some "A", [⟨"file:///gone.wav", 1, 2, none⟩], false, false⟩
      ⟨"file:///gone.wav", 1, 2, none⟩ [] rfl rfl (by decide) rfl).2.1,
   ((C5_missing_file_skips_playback
      ⟨[(some "A", ⟨some "A", [⟨"file:///gone.wav", 1, 2, none⟩], false, false⟩)],
        some "A", 0, none, true⟩
      ⟨(fun _ => false), none⟩
      ⟨some "A", [⟨"file:///gone.wav", 1, 2, none⟩], false, false⟩
      ⟨"file:///gone.wav", 1, 2, none⟩ [] rfl rfl (by decide) rfl).2.2.2
     (by decide) rfl).1⟩

/-! ### Shared facts about one wake, for sessions other than the current one -/

theorem speechWake_state_ne (s : AUIState) (hal : HalOracle) (session : TTSSession)
    (id : SessionId)
    (hcur : getSession s.sessions s.mycroft_session_id = some session)
    (hne : id ≠ s.mycroft_session_id) :
    getSession (speechWake s hal).state.sessions id = none := by
  have hnone := getSession_cleanup_ne s.sessions s.mycroft_session_id id hne
  have hcurne : ¬s.mycroft_session_id = id := fun h => hne h.symm
  have hset : ∀ v, getSession
      (setSession (cleanupStale s.sessions s.mycroft_session_id).1
        s.mycroft_session_id v) id = none := by
    intro v
    rw [getSession_setSession, if_neg hcurne]
    exact hnone
  cases hq : session.chunk_queue with
  | nil =>
      rw [speechWake_empty_queue s hal session hcur hq]
      exact hnone
  | cons request restQueue =>
      cases huri : ("file://".data.isPrefixOf request.uri.data) with
      | false =>
          rw [speechWake_bad_uri s hal session request restQueue hcur hq huri]
          exact hset _
      | true =>
          cases hlast : (request.is_last_chunk && !session.is_finished) with
          | true =>
              rw [speechWake_chunk_last s hal session request restQueue hcur hq huri hlast]
              exact hset _
          | false =>
              rw [speechWake_chunk_notlast s hal session request restQueue hcur hq huri hlast]
              exact hset _

theorem speechWake_count_ne (s : AUIState) (hal : HalOracle) (session : TTSSession)
    (t : String) (ht : TermTopic t) (id : SessionId)
    (hcur : getSession s.sessions s.mycroft_session_id = some session)
    (hsid : session.mycroft_session_id = s.mycroft_session_id)
    (hne : id ≠ s.mycroft_session_id) :
    countMsg (speechWake s hal).emitted t id =
      countMsg (cleanupStale s.sessions s.mycroft_session_id).2 t id := by
  have hfinne : session.mycroft_session_id ≠ id := by
    rw [hsid]; exact fun h => hne h.symm
  cases hq : session.chunk_queue with
  | nil =>
      rw [speechWake_empty_queue s hal session hcur hq]
  | cons request restQueue =>
      cases huri : ("file://".data.isPrefixOf request.uri.data) with
      | false =>
          rw [speechWake_bad_uri s hal session request restQueue hcur hq huri]
          simp only [countMsg_append, countMsg_start_msg t ht id session.mycroft_session_id,
            Nat.add_zero]
      | true =>
          cases hlast : (request.is_last_chunk && !session.is_finished) with
          | true =>
              rw [speechWake_chunk_last s hal session request restQueue hcur hq huri hlast]
              simp only [countMsg_append,
                countMsg_chunk_msgs t ht id session.mycroft_session_id request.chunk_index
                  request.num_chunks request.uri request.text,
                countMsg_finish_ne t id session.mycroft_session_id hfinne,
                Nat.add_zero]
          | false =>
              rw [speechWake_chunk_notlast s hal session request restQueue hcur hq huri hlast]
              simp only [countMsg_append,
                countMsg_chunk_msgs t ht id session.mycroft_session_id request.chunk_index
                  request.num_chunks request.uri request.text,
                Nat.add_zero]

/-- State reached from the initial state by: `tts.session.start` for "A",
`tts.chunk.start` for "A" (this releases the work semaphore), then
`mycroft.tts.stop` (which clears the current session id but removes no
registry entry).  The pending semaphore release lets the speech playback
loop wake in this state. -/
def staleWakeState : AUIState :=
  (stop_tts (handle_tts_chunk (handle_tts_session_start initialState (some "A")).1
      "file:///a.wav" (some "A") 0 1 none).1).1

/-- C1, counterexample: at a wake of the speech playback loop whose
current session id has no registered session (here `None`, after
`mycroft.tts.stop`), the cleanup loop is skipped: session "A" is
registered, not current and not finished, yet the wake removes nothing
and emits nothing — so it is not the case that *every* wake removes and
terminates every non-current registered session. -/
theorem C1_cleanup_skipped_on_sessionless_wake :
    ((some "A" : SessionId) ≠ staleWakeState.mycroft_session_id ∧
     getSession staleWakeState.sessions (some "A") =
       some ⟨some "A", [⟨"file:///a.wav", 0, 1, none⟩], false, false⟩) ∧
    (speechWake staleWakeState ⟨fun _ => true, none⟩).state = staleWakeState ∧
    (speechWake staleWakeState ⟨fun _ => true, none⟩).emitted = [] := by
  refine ⟨⟨by decide, by decide⟩, ?_, ?_⟩ <;> rfl

/-- C1, amended: at every wake of the speech playback loop at which the
current session id has a registered session (which holds at the first
wake after a supersession, since `tts.session.start` registers the new
current session), every registered, not-yet-finished session S1 with a
different id is removed from the registry and emits exactly one
`tts.session.ended` and exactly one `audio_output_end` — even if zero
chunks were ever delivered for S1. -/
theorem C1_superseded_session_terminated (s : AUIState) (hal : HalOracle)
    (current_session sess : TTSSession) (id : SessionId)
    (hcur : getSession s.sessions s.mycroft_session_id = some current_session)
    (hid : getSession s.sessions id = some sess)
    (hne : id ≠ s.mycroft_session_id)
    (hfin : sess.is_finished = false)
    (hwf : RegistryWF s.sessions) :
    getSession (speechWake s hal).state.sessions id = none ∧
    countMsg (speechWake s hal).emitted "mycroft.tts.session.ended" id = 1 ∧
    countMsg (speechWake s hal).emitted "recognizer_loop:audio_output_end" id = 1 := by
  have hsid : current_session.mycroft_session_id = s.mycroft_session_id :=
    hwf.2 _ (getSession_mem _ _ _ hcur)
  refine ⟨speechWake_state_ne s hal current_session id hcur hne, ?_, ?_⟩
  · rw [speechWake_count_ne s hal current_session _ (Or.inl rfl) id hcur hsid hne]
    exact countMsg_cleanup_of_unfinished s.sessions s.mycroft_session_id id _
      (Or.inl rfl) sess hid hfin hne hwf.1
  · rw [speechWake_count_ne s hal current_session _ (Or.inr rfl) id hcur hsid hne]
    exact countMsg_cleanup_of_unfinished s.sessions s.mycroft_session_id id _
      (Or.inr rfl) sess hid hfin hne hwf.1

theorem C1_superseded_session_terminated_witness :
    (getSession (⟨[(some "A", ⟨some "A", [], false, false⟩),
          (some "B", ⟨some "B", [], false, false⟩)], some "B", 1, none, true⟩ :
        AUIState).sessions
       (⟨[(some "A", ⟨some "A", [], false, false⟩),
          (some "B", ⟨some "B", [], false, false⟩)], some "B", 1, none, true⟩ :
        AUIState).mycroft_session_id = some ⟨some "B", [], false, false⟩ ∧
     getSession (⟨[(some "A", ⟨some "A", [], false, false⟩),
          (some "B", ⟨some "B", [], false, false⟩)], some "B", 1, none, true⟩ :
        AUIState).sessions (some "A") = some ⟨some "A", [], false, false⟩ ∧
     (some "A" : SessionId) ≠ (some "B" : SessionId) ∧
     (⟨some "A", [], false, false⟩ : TTSSession).is_finished = false ∧
     RegistryWF (⟨[(some "A", ⟨some "A", [], false, false⟩),
          (some "B", ⟨some "B", [], false, false⟩)], some "B", 1, none, true⟩ :
        AUIState).sessions) ∧
    getSession (speechWake ⟨[(some "A", ⟨some "A", [], false, false⟩),
          (some "B", ⟨some "B", [], false, false⟩)], some "B", 1, none, true⟩
        ⟨(fun _ => true), none⟩).state.sessions (some "A") = none ∧
    countMsg (speechWake ⟨[(some "A", ⟨some "A", [], false, false⟩),
          (some "B", ⟨some "B", [], false, false⟩)], some "B", 1, none, true⟩
        ⟨(fun _ => true), none⟩).emitted "mycroft.tts.session.ended" (some "A") = 1 :=
  ⟨⟨rfl, rfl, by decide, rfl, by decide⟩,
   (C1_superseded_session_terminated
      ⟨[(some "A", ⟨some "A", [], false, false⟩),
        (some "B", ⟨some "B", [], false, false⟩)], some "B", 1, none, true⟩
      ⟨(fun _ => true), none⟩ ⟨some "B", [], false, false⟩ ⟨some "A", [], false, false⟩
      (some "A") rfl rfl (by decide) rfl (by decide)).1,
   (C1_superseded_session_terminated
      ⟨[(some "A", ⟨some "A", [], false, false⟩),
        (some "B", ⟨some "B", [], false, false⟩)], some "B", 1, none, true⟩
      ⟨(fun _ => true), none⟩ ⟨some "B", [], false, false⟩ ⟨some "A", [], false, false⟩
      (some "A") rfl rfl (by decide) rfl (by decide)).2.1⟩

/-- C3: per wake of the speech playback loop, each termination topic
(`tts.session.ended` / `audio_output_end`) is emitted at most once for
any session id; it is emitted zero times for a session already marked
`is_finished` (the guard both the last-chunk path and the stale-cleanup
path test); and whenever one is emitted, the post-state has that session
either removed from the registry or marked `is_finished`, so between one
`tts.session.start` for an id (which resets the flag) and the next, the
termination events fire at most once. -/
theorem C3_termination_guarded_by_is_finished (s : AUIState) (hal : HalOracle)
    (id : SessionId) (t : String) (ht : TermTopic t) (hwf : RegistryWF s.sessions) :
    countMsg (speechWake s hal).emitted t id ≤ 1 ∧
    (∀ v, getSession s.sessions id = some v → v.is_finished = true →
      countMsg (speechWake s hal).emitted t id = 0) ∧
    (1 ≤ countMsg (speechWake s hal).emitted t id →
      getSession (speechWake s hal).state.sessions id = none ∨
      ∃ w, getSession (speechWake s hal).state.sessions id = some w ∧
        w.is_finished = true) := by
  cases hcur : getSession s.sessions s.mycroft_session_id with
  | none =>
      have hE : (speechWake s hal).emitted = [] := by
        rw [speechWake_none s hal hcur]
      rw [hE]
      refine ⟨by simp [countMsg], fun v _ _ => rfl, fun h1 => ?_⟩
      simp [countMsg] at h1
  | some session =>
      have hsid : session.mycroft_session_id = s.mycroft_session_id :=
        hwf.2 _ (getSession_mem _ _ _ hcur)
      by_cases hidcur : id = s.mycroft_session_id
      · subst hidcur
        have hcc : countMsg (cleanupStale s.sessions s.mycroft_session_id).2 t
            s.mycroft_session_id = 0 :=
          countMsg_cleanup_cur s.sessions s.mycroft_session_id t
        cases hq : session.chunk_queue with
        | nil =>
            have hE : (speechWake s hal).emitted =
                (cleanupStale s.sessions s.mycroft_session_id).2 := by
              rw [speechWake_empty_queue s hal session hcur hq]
            refine ⟨?_, fun v _ _ => ?_, fun h1 => ?_⟩
            · rw [hE, hcc]; exact Nat.zero_le 1
            · rw [hE]; exact hcc
            · rw [hE, hcc] at h1; omega
        | cons request restQueue =>
            cases huri : ("file://".data.isPrefixOf request.uri.data) with
            | false =>
                have hE : (speechWake s hal).emitted =
                    (cleanupStale s.sessions s.mycroft_session_id).2 ++
                      [⟨"recognizer_loop:audio_output_start",
                        EvData.sid session.mycroft_session_id⟩] := by
                  rw [speechWake_bad_uri s hal session request restQueue hcur hq huri]
                have hcnt : countMsg (speechWake s hal).emitted t s.mycroft_session_id = 0 := by
                  rw [hE, countMsg_append, hcc,
                    countMsg_start_msg t ht s.mycroft_session_id session.mycroft_session_id]
                refine ⟨?_, fun v _ _ => hcnt, fun h1 => ?_⟩
                · rw [hcnt]; exact Nat.zero_le 1
                · rw [hcnt] at h1; omega
            | true =>
                cases hlast : (request.is_last_chunk && !session.is_finished) with
                | true =>
                    have hE : (speechWake s hal).emitted =
                        (cleanupStale s.sessions s.mycroft_session_id).2 ++
                          [⟨"recognizer_loop:audio_output_start",
                            EvData.sid session.mycroft_session_id⟩,
                           ⟨"mycroft.tts.chunk.started",
                            EvData.chunk session.mycroft_session_id request.chunk_index
                              request.num_chunks request.uri request.text⟩,
                           ⟨"mycroft.tts.chunk.ended",
                            EvData.chunk session.mycroft_session_id request.chunk_index
                              request.num_chunks request.uri request.text⟩] ++
                          finish_tts_session session.mycroft_session_id := by
                      rw [speechWake_chunk_last s hal session request restQueue hcur hq huri hlast]
                    have hS : (speechWake s hal).state.sessions =
                        setSession (cleanupStale s.sessions s.mycroft_session_id).1
                          s.mycroft_session_id
                          { session with chunk_queue := restQueue, speech_finished := false, is_finished := true } := by
                      rw [speechWake_chunk_last s hal session request restQueue hcur hq huri hlast]
                    have hfin_false : session.is_finished = false := by
                      have h2 := ((Bool.and_eq_true _ _).mp hlast).2
                      simpa using h2
                    have hcnt : countMsg (speechWake s hal).emitted t s.mycroft_session_id = 1 := by
                      rw [hE, countMsg_append, countMsg_append, hcc,
                        countMsg_chunk_msgs t ht s.mycroft_session_id session.mycroft_session_id
                          request.chunk_index request.num_chunks request.uri request.text,
                        countMsg_finish t ht s.mycroft_session_id session.mycroft_session_id,
                        hsid]
                      simp
                    refine ⟨?_, fun v hv hvfin => ?_, fun _ => ?_⟩
                    · rw [hcnt]
                    · rw [hcur] at hv
                      obtain rfl : session = v := by
                        injection hv
                      rw [hfin_false] at hvfin
                      cases hvfin
                    · right
                      exact ⟨{ session with chunk_queue := restQueue, speech_finished := false, is_finished := true },
                        by rw [hS, getSession_setSession, if_pos rfl], rfl⟩
                | false =>
                    have hE : (speechWake s hal).emitted =
                        (cleanupStale s.sessions s.mycroft_session_id).2 ++
                          [⟨"recognizer_loop:audio_output_start",
                            EvData.sid session.mycroft_session_id⟩,
                           ⟨"mycroft.tts.chunk.started",
                            EvData.chunk session.mycroft_session_id request.chunk_index
                              request.num_chunks request.uri request.text⟩,
                           ⟨"mycroft.tts.chunk.ended",
                            EvData.chunk session.mycroft_session_id request.chunk_index
                              request.num_chunks request.uri request.text⟩] := by
                      rw [speechWake_chunk_notlast s hal session request restQueue hcur hq huri hlast]
                    have hcnt : countMsg (speechWake s hal).emitted t s.mycroft_session_id = 0 := by
                      rw [hE, countMsg_append, hcc,
                        countMsg_chunk_msgs t ht s.mycroft_session_id session.mycroft_session_id
                          request.chunk_index request.num_chunks request.uri request.text]
                    refine ⟨?_, fun v _ _ => hcnt, fun h1 => ?_⟩
                    · rw [hcnt]; exact Nat.zero_le 1
                    · rw [hcnt] at h1; omega
      · have hne : id ≠ s.mycroft_session_id := hidcur
        have hcnt := speechWake_count_ne s hal session t ht id hcur hsid hne
        have hstate := speechWake_state_ne s hal session id hcur hne
        refine ⟨?_, fun v hv hvfin => ?_, fun _ => Or.inl hstate⟩
        · rw [hcnt]
          cases hgid : getSession s.sessions id with
          | none =>
              rw [countMsg_cleanup_of_none s.sessions s.mycroft_session_id id t hgid]
              exact Nat.zero_le 1
          | some v =>
              cases hvf : v.is_finished with
              | true =>
                  rw [countMsg_cleanup_of_finished s.sessions s.mycroft_session_id id t v
                    hgid hvf hwf.1]
                  exact Nat.zero_le 1
              | false =>
                  rw [countMsg_cleanup_of_unfinished s.sessions s.mycroft_session_id id t ht v
                    hgid hvf hne hwf.1]
        · rw [hcnt]
          exact countMsg_cleanup_of_finished s.sessions s.mycroft_session_id id t v hv hvfin hwf.1

theorem C3_termination_guarded_by_is_finished_witness :
    (TermTopic "mycroft.tts.session.ended" ∧
     RegistryWF (⟨[(some "A", ⟨some "A", [], false, false⟩)],
        some "A", 1, none, true⟩ : AUIState).sessions) ∧
    countMsg (speechWake ⟨[(some "A", ⟨some "A", [], false, false⟩)],
        some "A", 1, none, true⟩ ⟨(fun _ => true), none⟩).emitted
      "mycroft.tts.session.ended" (some "A") ≤ 1 :=
  ⟨⟨Or.inl rfl, by decide⟩,
   (C3_termination_guarded_by_is_finished
      ⟨[(some "A", ⟨some "A", [], false, false⟩)], some "A", 1, none, true⟩
      ⟨(fun _ => true), none⟩ (some "A") "mycroft.tts.session.ended"
      (Or.inl rfl) (by decide)).1⟩

end MycroftAudio
